import Mathlib

/-!
Verification of the SANRAL tender normalization pipeline (models.py and
lambda_function.py) against its natural-language specification.

The development is a shallow embedding of the Python source:

* Python values reaching `SanralTender.from_api_response` are modelled by
  `PyVal` (strings, None, numbers, lists).
* Python exceptions are modelled by the `Except String` monad: a `.error`
  value corresponds to an uncaught exception escaping the function.
* The external collaborators (the `requests` fetch plus the BeautifulSoup
  lookups of the detail page) are modelled at the boundary described in the
  spec: a fetch oracle `String → Option DetailPage`, where `none` stands for
  any exception raised inside the `try` block (network failure, non-success
  status) and a `DetailPage` carries the four optional scraped strings.
* String-processing primitives (`str.title`, `str.upper`, `str.lower`,
  `str.strip`, `str.split`, `str.replace`, `html.unescape` on the common
  entities, and the two regular expressions used by the source) are embedded
  as executable functions over `List Char`, restricted to ASCII, following
  the CPython semantics (greedy matching with the exact backtracking
  behaviour of the concrete patterns, `strptime` directive character
  classes, and the post-match unconverted-data check).

All definitions are executable; theorems about concrete inputs evaluate by
`rfl` or `decide`.
-/

/-- Model of the Python values that can appear in an API response item:
strings, `None`, numbers and (nested) lists.  This is the input type of
`SanralTender.from_api_response`. -/
inductive PyVal where
  | str (s : String)
  | none
  | num (n : Int)
  | list (items : List PyVal)

/-- Python whitespace test for the ASCII characters recognised by
`str.split`, `str.strip` and the regex class `\s`. -/
def isPyWs (c : Char) : Bool :=
  c = ' ' || c = '\t' || c = '\n' || c = '\r' || c = '\x0b' || c = '\x0c'

/-- `str.lower` (ASCII): Lean core `Char.toLower` is exactly the ASCII
case mapping used by CPython for ASCII letters. -/
def pyLower (s : String) : String := ⟨s.data.map Char.toLower⟩

/-- `str.upper` (ASCII). -/
def pyUpper (s : String) : String := ⟨s.data.map Char.toUpper⟩

/-- One step of `str.title`: a cased (here: ASCII alphabetic) character is
uppercased when the previous character was not cased, lowercased
otherwise; uncased characters pass through. -/
def titleAux : Bool → List Char → List Char
  | _, [] => []
  | prevAlpha, c :: rest =>
    (if c.isAlpha then (if prevAlpha then c.toLower else c.toUpper) else c)
      :: titleAux c.isAlpha rest

/-- `str.title` (ASCII). -/
def pyTitle (s : String) : String := ⟨titleAux false s.data⟩

/-- `str.strip()` with no argument: remove leading and trailing
whitespace. -/
def pyStrip (s : String) : String :=
  ⟨((s.data.dropWhile isPyWs).reverse.dropWhile isPyWs).reverse⟩

/-- Helper for `str.split()`: split into maximal whitespace-free words,
discarding empty pieces.  `acc` holds the current word reversed. -/
def wordsAux (acc : List Char) : List Char → List (List Char)
  | [] => if acc.isEmpty then [] else [acc.reverse]
  | c :: rest =>
    if isPyWs c then
      if acc.isEmpty then wordsAux [] rest
      else acc.reverse :: wordsAux [] rest
    else wordsAux (c :: acc) rest

/-- The idiom `' '.join(s.split())`: collapse every whitespace run to a
single space and trim the ends. -/
def collapseWs (s : String) : String :=
  ⟨List.intercalate [' '] (wordsAux [] s.data)⟩

/-- `html.unescape`, modelled on the common named and numeric entities
appearing in tender data (`&amp; &lt; &gt; &quot; &apos; &#39;`); all other
text passes through unchanged.  The full CPython entity table is part of
the external `html` library. -/
def unescapeAux : Nat → List Char → List Char
  | 0, l => l
  | _ + 1, [] => []
  | fuel + 1, c :: rest =>
    if c = '&' then
      if "amp;".data.isPrefixOf rest then '&' :: unescapeAux fuel (rest.drop 4)
      else if "lt;".data.isPrefixOf rest then '<' :: unescapeAux fuel (rest.drop 3)
      else if "gt;".data.isPrefixOf rest then '>' :: unescapeAux fuel (rest.drop 3)
      else if "quot;".data.isPrefixOf rest then '"' :: unescapeAux fuel (rest.drop 5)
      else if "apos;".data.isPrefixOf rest then '\'' :: unescapeAux fuel (rest.drop 5)
      else if "#39;".data.isPrefixOf rest then '\'' :: unescapeAux fuel (rest.drop 4)
      else c :: unescapeAux fuel rest
    else c :: unescapeAux fuel rest

/-- See `unescapeAux`. -/
def htmlUnescape (s : String) : String := ⟨unescapeAux s.data.length s.data⟩

/-- `str.replace(pat, '')`: delete every non-overlapping occurrence of
`pat`, scanning left to right.  `pat` is assumed non-empty (it is the
literal `"Tender Notice:"` at the single call site).  Fuel is the length
of the scanned list. -/
def removeAllAux (pat : List Char) : Nat → List Char → List Char
  | 0, l => l
  | _ + 1, [] => []
  | fuel + 1, c :: rest =>
    if pat.isPrefixOf (c :: rest) then
      removeAllAux pat fuel ((c :: rest).drop pat.length)
    else c :: removeAllAux pat fuel rest

/-- See `removeAllAux`. -/
def removeLiteral (pat : String) (s : String) : String :=
  ⟨removeAllAux pat.data s.data.length s.data⟩

/-- The preprocessing `date_str.replace('.', '').replace('H', '')` applied
by `parse_sanral_date` before trying a format that contains the letter H:
deleting single characters with `str.replace` is a filter. -/
def stripDotH (s : String) : String :=
  ⟨s.data.filter (fun c => c ≠ '.' && c ≠ 'H')⟩

/-- A naive (proleptic Gregorian, timezone-free) timestamp, the image of a
Python `datetime` at second and microsecond zero. -/
structure PyDateTime where
  year : Nat
  month : Nat
  day : Nat
  hour : Nat
  minute : Nat
deriving DecidableEq, Repr

/-- Gregorian leap-year rule, as used by `datetime` day validation. -/
def isLeapYear (y : Nat) : Bool :=
  y % 4 = 0 && (y % 100 ≠ 0 || y % 400 = 0)

/-- Days in a month, for `datetime` day validation. -/
def daysInMonth (y m : Nat) : Nat :=
  if m = 2 then (if isLeapYear y then 29 else 28)
  else if m = 4 || m = 6 || m = 9 || m = 11 then 30
  else 31

/-- The range checks the `datetime` constructor performs on the fields
that `strptime` captured (the directive patterns already bound hour to
0..23 and minute to 0..59, but day-of-month validity and the year range
are checked only at construction). -/
def mkPyDateTime (y m d h mi : Nat) : Option PyDateTime :=
  if 1 ≤ y && y ≤ 9999 && 1 ≤ m && m ≤ 12 && 1 ≤ d && d ≤ daysInMonth y m
  then some ⟨y, m, d, h, mi⟩ else Option.none

/-- Numeric value of an ASCII digit. -/
def digitVal (c : Char) : Nat := c.toNat - 48

/-- `strptime` directive `%Y`: exactly four digits. -/
def parseYear4 : List Char → Option (Nat × List Char)
  | a :: b :: c :: d :: rest =>
    if a.isDigit && b.isDigit && c.isDigit && d.isDigit then
      some (digitVal a * 1000 + digitVal b * 100 + digitVal c * 10 + digitVal d, rest)
    else Option.none
  | _ => Option.none

/-- `strptime` directive `%m`, pattern `1[0-2]|0[1-9]|[1-9]` tried in
alternation order (a longer alternative that later fails cannot be
rescued by backtracking here, because in every format the character after
the month is a non-digit). -/
def parseMonthNum : List Char → Option (Nat × List Char)
  | '1' :: c :: rest =>
    if c = '0' || c = '1' || c = '2' then some (10 + digitVal c, rest)
    else some (1, c :: rest)
  | '0' :: c :: rest =>
    if '1' ≤ c && c ≤ '9' then some (digitVal c, rest) else Option.none
  | c :: rest =>
    if '1' ≤ c && c ≤ '9' then some (digitVal c, rest) else Option.none
  | [] => Option.none

/-- `strptime` directive `%d`, pattern `3[01]|[12]\d|0[1-9]|[1-9]`. -/
def parseDayNum : List Char → Option (Nat × List Char)
  | '3' :: c :: rest =>
    if c = '0' || c = '1' then some (30 + digitVal c, rest)
    else some (3, c :: rest)
  | c1 :: c2 :: rest =>
    if (c1 = '1' || c1 = '2') && c2.isDigit then
      some (digitVal c1 * 10 + digitVal c2, rest)
    else if c1 = '0' && ('1' ≤ c2 && c2 ≤ '9') then some (digitVal c2, rest)
    else if '1' ≤ c1 && c1 ≤ '9' then some (digitVal c1, c2 :: rest)
    else Option.none
  | [c] => if '1' ≤ c && c ≤ '9' then some (digitVal c, []) else Option.none
  | [] => Option.none

/-- `strptime` directive `%H`, pattern `2[0-3]|[0-1]\d|\d`. -/
def parseHourNum : List Char → Option (Nat × List Char)
  | '2' :: c :: rest =>
    if '0' ≤ c && c ≤ '3' then some (20 + digitVal c, rest)
    else some (2, c :: rest)
  | c1 :: c2 :: rest =>
    if (c1 = '0' || c1 = '1') && c2.isDigit then
      some (digitVal c1 * 10 + digitVal c2, rest)
    else if c1.isDigit then some (digitVal c1, c2 :: rest)
    else Option.none
  | [c] => if c.isDigit then some (digitVal c, []) else Option.none
  | [] => Option.none

/-- `strptime` directive `%M`, pattern `[0-5]\d|\d`. -/
def parseMinuteNum : List Char → Option (Nat × List Char)
  | c1 :: c2 :: rest =>
    if ('0' ≤ c1 && c1 ≤ '5') && c2.isDigit then
      some (digitVal c1 * 10 + digitVal c2, rest)
    else if c1.isDigit then some (digitVal c1, c2 :: rest)
    else Option.none
  | [c] => if c.isDigit then some (digitVal c, []) else Option.none
  | [] => Option.none

/-- A literal whitespace character in a `strptime` format becomes `\s+`:
at least one whitespace character. -/
def parseWs1 (l : List Char) : Option (List Char) :=
  let ws := l.takeWhile isPyWs
  if ws.isEmpty then Option.none else some (l.drop ws.length)

/-- A literal (non-directive, non-whitespace) format character. -/
def expectChar (c : Char) : List Char → Option (List Char)
  | c2 :: rest => if c2 = c then some rest else Option.none
  | [] => Option.none

/-- Case-insensitive ASCII literal test used for `re.IGNORECASE` literals
and for the `%B` month names. -/
def startsWithCI : List Char → List Char → Bool
  | [], _ => true
  | _ :: _, [] => false
  | p :: ps, c :: cs => (p.toLower = c.toLower) && startsWithCI ps cs

/-- The twelve full month names recognised by `%B` (C locale), matched
case-insensitively; no name is a prefix of another. -/
def monthTable : List (String × Nat) :=
  [("january", 1), ("february", 2), ("march", 3), ("april", 4),
   ("may", 5), ("june", 6), ("july", 7), ("august", 8),
   ("september", 9), ("october", 10), ("november", 11), ("december", 12)]

/-- `strptime` directive `%B`. -/
def parseMonthName (l : List Char) : Option (Nat × List Char) :=
  (monthTable.find? (fun e => startsWithCI e.1.data l)).map
    (fun e => (e.2, l.drop e.1.data.length))

/-- `datetime.strptime(s, '%Y/%m/%d %H:%M')` including the final
unconverted-data check. -/
def parseFmtYmdHM (l : List Char) : Option PyDateTime := do
  let (y, r1) ← parseYear4 l
  let r2 ← expectChar '/' r1
  let (m, r3) ← parseMonthNum r2
  let r4 ← expectChar '/' r3
  let (d, r5) ← parseDayNum r4
  let r6 ← parseWs1 r5
  let (h, r7) ← parseHourNum r6
  let r8 ← expectChar ':' r7
  let (mi, r9) ← parseMinuteNum r8
  if r9.isEmpty then mkPyDateTime y m d h mi else Option.none

/-- `datetime.strptime(s, '%d/%m/%Y')`. -/
def parseFmtDmy (l : List Char) : Option PyDateTime := do
  let (d, r1) ← parseDayNum l
  let r2 ← expectChar '/' r1
  let (m, r3) ← parseMonthNum r2
  let r4 ← expectChar '/' r3
  let (y, r5) ← parseYear4 r4
  if r5.isEmpty then mkPyDateTime y m d 0 0 else Option.none

/-- `datetime.strptime(s, '%d %B %Y. %HH%M')`: day, whitespace, month
name, whitespace, four-digit year, a literal dot, whitespace, hour, a
literal H, minute. -/
def parseFmtVerbose (l : List Char) : Option PyDateTime := do
  let (d, r1) ← parseDayNum l
  let r2 ← parseWs1 r1
  let (m, r3) ← parseMonthName r2
  let r4 ← parseWs1 r3
  let (y, r5) ← parseYear4 r4
  let r6 ← expectChar '.' r5
  let r7 ← parseWs1 r6
  let (h, r8) ← parseHourNum r7
  let r9 ← expectChar 'H' r8
  let (mi, r10) ← parseMinuteNum r9
  if r10.isEmpty then mkPyDateTime y m d h mi else Option.none

/-- The helper `parse_sanral_date` defined inside
`SanralTender.from_api_response` (src/models.py lines 112-128): a falsy or
non-string input yields `None`; otherwise the stripped input is tried
against the three formats in order, and for a format containing the letter
H (the first and the third) every dot and capital H is first deleted from
the input — but not from the format.  All `strptime` errors are caught, so
the function never raises. -/
def parse_sanral_date (v : PyVal) : Option PyDateTime :=
  match v with
  | .str s =>
    if s = "" then Option.none
    else
      let cleaned := pyStrip s
      match parseFmtYmdHM (stripDotH cleaned).data with
      | some d => some d
      | Option.none =>
        match parseFmtDmy cleaned.data with
        | some d => some d
        | Option.none => parseFmtVerbose (stripDotH cleaned).data
  | _ => Option.none

/-- `datetime.strptime(s, '%B %d, %Y')`, used for the scraped
Create Date on the detail page (src/models.py line 186). -/
def parseCreateDate (s : String) : Option PyDateTime := do
  let (m, r1) ← parseMonthName s.data
  let r2 ← parseWs1 r1
  let (d, r3) ← parseDayNum r2
  let r4 ← expectChar ',' r3
  let r5 ← parseWs1 r4
  let (y, r6) ← parseYear4 r5
  if r6.isEmpty then mkPyDateTime y m d 0 0 else Option.none

/-- `\s*` followed by the literal `</a>` (case-insensitive): true when the
list starts with zero or more whitespace characters and then the closing
tag. -/
def closeAfterWs : List Char → Bool
  | [] => false
  | c :: rest => startsWithCI "</a>".data (c :: rest) || (isPyWs c && closeAfterWs rest)

/-- The lazy group `(.*?)` of `\s*(.*?)\s*</a>`: the shortest run of
non-newline characters after which some whitespace run followed by `</a>`
completes the match.  Returns the captured group, or `none` when the
remainder cannot match (the regex `.` does not cross a newline). -/
def grabInner : List Char → Option (List Char)
  | [] => Option.none
  | c :: rest =>
    if closeAfterWs (c :: rest) then some []
    else if c = '\n' then Option.none
    else (grabInner rest).map (c :: ·)

/-- The part of the title regex after the literal `href="`: the greedy
group `([^"]+)` (the maximal non-quote run, necessarily followed by the
quote for the pattern to continue), the literal `">`, then
`\s*(.*?)\s*</a>` with a maximal leading whitespace run.  Returns
(href path, inner link text). -/
def hrefTail (l : List Char) : Option (String × String) :=
  if (l.takeWhile (· ≠ '"')).isEmpty then Option.none
  else
    match l.drop (l.takeWhile (· ≠ '"')).length with
    | '"' :: '>' :: tail =>
      match grabInner (tail.drop (tail.takeWhile isPyWs).length) with
      | some inner => some (⟨l.takeWhile (· ≠ '"')⟩, ⟨inner⟩)
      | Option.none => Option.none
    | _ => Option.none

/-- `re.search` for `href="([^"]+)">\s*(.*?)\s*</a>` with `re.IGNORECASE`
(src/models.py line 134): try each position left to right; at a position
where the literal `href="` matches case-insensitively, attempt the rest of
the pattern, and on failure resume scanning one character further. -/
def findHrefAux : Nat → List Char → Option (String × String)
  | 0, _ => Option.none
  | _ + 1, [] => Option.none
  | fuel + 1, c :: rest =>
    if startsWithCI "href=\"".data (c :: rest) then
      match hrefTail ((c :: rest).drop 6) with
      | some r => some r
      | Option.none => findHrefAux fuel rest
    else findHrefAux fuel rest

/-- See `findHrefAux`. -/
def findHref (s : String) : Option (String × String) :=
  findHrefAux s.data.length s.data

/-- Character class `[a-zA-Z0-9._%+-]` (email local part). -/
def isLocalChar (c : Char) : Bool :=
  c.isAlpha || c.isDigit || c = '.' || c = '_' || c = '%' || c = '+' || c = '-'

/-- Character class `[a-zA-Z0-9.-]` (email domain part). -/
def isDomainChar (c : Char) : Bool :=
  c.isAlpha || c.isDigit || c = '.' || c = '-'

/-- Largest `k < n` with `p k`, the backtracking order of a greedy
subpattern. -/
def findLargest (p : Nat → Bool) : Nat → Option Nat
  | 0 => Option.none
  | n + 1 => if p n then some n else findLargest p n

/-- Split point test inside the maximal domain-character run `dom`: the
greedy `[a-zA-Z0-9.-]+` keeps `k ≥ 1` characters, the next character must
be the literal dot, and the greedy `[a-zA-Z]{2,}` needs at least two
letters after it. -/
def dotSplitOk (dom : List Char) (k : Nat) : Bool :=
  decide (1 ≤ k) && (dom.getD k ' ' = '.')
    && decide (2 ≤ ((dom.drop (k + 1)).takeWhile Char.isAlpha).length)

/-- One attempted match of `[a-zA-Z0-9._%+-]+@[a-zA-Z0-9.-]+\.[a-zA-Z]{2,}`
anchored at the head of `l`, with the backtracking behaviour of the
concrete pattern: the local part is the maximal run of local characters
(it must be non-empty and be followed by `@`); after `@`, within the
maximal run of domain characters, the greedy domain part keeps the largest
split that leaves a dot followed by at least two letters, and the TLD part
takes the maximal letter run.  Returns (matched characters, remainder
after the match). -/
def matchEmailAt (l : List Char) : Option (List Char × List Char) :=
  match l.drop (l.takeWhile isLocalChar).length with
  | '@' :: r1 =>
    if (l.takeWhile isLocalChar).isEmpty then Option.none
    else
      match findLargest (dotSplitOk (r1.takeWhile isDomainChar))
          (r1.takeWhile isDomainChar).length with
      | some k =>
        some (l.takeWhile isLocalChar ++ '@' ::
                ((r1.takeWhile isDomainChar).take k ++ '.' ::
                  ((r1.takeWhile isDomainChar).drop (k + 1)).takeWhile Char.isAlpha),
              r1.drop (k + 1 +
                (((r1.takeWhile isDomainChar).drop (k + 1)).takeWhile
                    Char.isAlpha).length))
      | Option.none => Option.none
  | _ => Option.none

/-- `re.findall` scan for the email pattern: non-overlapping matches,
scanning left to right, resuming after each match. -/
def findEmailsAux : Nat → List Char → List (List Char)
  | 0, _ => []
  | _ + 1, [] => []
  | fuel + 1, c :: rest =>
    match matchEmailAt (c :: rest) with
    | some (m, after) => m :: findEmailsAux fuel after
    | Option.none => findEmailsAux fuel rest

/-- `re.findall(r'[a-zA-Z0-9._%+-]+@[a-zA-Z0-9.-]+\.[a-zA-Z]{2,}', s)`
(src/models.py line 196). -/
def findEmails (s : String) : List String :=
  (findEmailsAux s.data.length s.data).map (fun cs => ⟨cs⟩)

/-- A string is a syntactically valid address for the email pattern of the
source when the matcher, run on the whole string, consumes exactly the
whole string: the full string is one match of the pattern. -/
def validEmail (s : String) : Prop := matchEmailAt s.data = some (s.data, [])

instance (s : String) : Decidable (validEmail s) := by
  unfold validEmail; infer_instance

/-- The final email computation of `from_api_response` (src/models.py
lines 195-198): the last `findall` match lowercased, or the empty string
when there is none. -/
def extractEmail (fullNoticeText : String) : String :=
  match (findEmails fullNoticeText).getLast? with
  | some m => pyLower m
  | Option.none => ""

/-- A supporting document (src/models.py class SupportingDoc). -/
structure SupportingDoc where
  name : String
  url : String
deriving DecidableEq, Repr

/-- The canonical tender record built by
`SanralTender.from_api_response`.  Optional timestamps are `Option`;
every other field is always-present text, as in the source class. -/
structure SanralTender where
  title : String
  description : String
  source : String
  published_date : Option PyDateTime
  closing_date : Option PyDateTime
  supporting_docs : List SupportingDoc
  tags : List String
  tender_number : String
  category : String
  region : String
  email : String
  full_notice_text : String
deriving DecidableEq, Repr

/-- The observable outcome of the four independent BeautifulSoup lookups
on a successfully fetched detail page (src/models.py lines 159-188): the
stripped text of the h2 inside the page-header div, of the first h3, of
the cell next to the Tender Notice label, and of the cell next to the
Create Date header — each absent when the corresponding element is
missing.  The HTML query collaborator is external; this is its interface
boundary as the spec defines it. -/
structure DetailPage where
  headerH2 : Option String
  firstH3 : Option String
  tenderNoticeCell : Option String
  createDateText : Option String

/-- The fetch collaborator: `none` models any exception inside the `try`
block of the enrichment step (network error, or `raise_for_status` on a
non-success status), all of which the source catches. -/
def FetchOracle := String → Option DetailPage

/-- Step 1 of `from_api_response` on the title field (src/models.py lines
131-140): search the entity-decoded title for the hyperlink; on a match,
build the absolute URL from the portal origin when the href path is
non-empty (it always is, the group being `[^"]+`), and take the
whitespace-collapsed inner text as the tender number; otherwise no URL and
the literal N/A. -/
def titleFieldParts (s0 : String) : Option String × String :=
  match findHref (htmlUnescape s0) with
  | some (path, txt) =>
    (if path = "" then Option.none else some ("https://www.nra.co.za" ++ path),
     collapseWs txt)
  | Option.none => (Option.none, "N/A")

/-- The provisional description (src/models.py line 143): entity-decode,
collapse whitespace, delete every occurrence of the literal
`Tender Notice:`, strip surrounding whitespace. -/
def initialDescription (s3 : String) : String :=
  pyStrip (removeLiteral "Tender Notice:" (collapseWs (htmlUnescape s3)))

/-- Step 2 of `from_api_response` (src/models.py lines 153-192): when a
URL was found, fetch and scrape; each of the four lookups independently
overrides its provisional value when the element is present; the scraped
Create Date is parsed with `%B %d, %Y`, a parse failure leaving the
published date absent; any exception in the block (modelled by the oracle
returning `none`) keeps all provisional values.  Returns (title,
description, full notice text, published date). -/
def enrichedParts (fetch : FetchOracle) (url : Option String)
    (tenderNumber desc0 fnt0 : String) :
    String × String × String × Option PyDateTime :=
  match url with
  | Option.none => (tenderNumber, desc0, fnt0, Option.none)
  | some u =>
    match fetch u with
    | Option.none => (tenderNumber, desc0, fnt0, Option.none)
    | some page =>
      (page.headerH2.getD tenderNumber, page.firstH3.getD desc0,
       page.tenderNoticeCell.getD fnt0, page.createDateText.bind parseCreateDate)

/-- Steps 1-4 of `from_api_response` once the five string fields of the
row are in hand (the closing-date field `v5` is passed unparsed, as the
source hands it straight to `parse_sanral_date`). -/
def assembleTender (fetch : FetchOracle) (s0 s1 s2 s3 s4 : String)
    (v5 : PyVal) : SanralTender :=
  let parts := titleFieldParts s0
  let url := parts.1
  let tenderNumber := parts.2
  let desc0 := initialDescription s3
  let fnt0 := collapseWs (htmlUnescape s4)
  let closeDate := parse_sanral_date v5
  let e := enrichedParts fetch url tenderNumber desc0 fnt0
  let email := extractEmail e.2.2.1
  let docList : List SupportingDoc :=
    match url with
    | some u => [⟨"Tender Details", u⟩]
    | Option.none => []
  { title := pyTitle e.1
    description := pyTitle e.2.1
    source := "SANRAL"
    published_date := e.2.2.2
    closing_date := closeDate
    supporting_docs := docList
    tags := []
    tender_number := pyUpper tenderNumber
    category := pyTitle (pyStrip s1)
    region := pyTitle (pyStrip s2)
    email := email
    full_notice_text := pyTitle e.2.2.1 }

/-- `SanralTender.from_api_response` (src/models.py lines 94-219).  A
non-list input or a list with fewer than six items returns `None` (ok
none).  Otherwise the items at positions 0, 3, 4, 1, 2 must be strings —
in that order, matching the evaluation order in which the source applies
`html.unescape` and `.strip()` to them — and a non-string there raises
(`.error`), since those calls are outside every `try` block.  The
closing-date item at position 5 may be any value. -/
def from_api_response (fetch : FetchOracle) (response_item : PyVal) :
    Except String (Option SanralTender) :=
  match response_item with
  | .list (i0 :: i1 :: i2 :: i3 :: i4 :: i5 :: _) =>
    match i0 with
    | .str s0 =>
      match i3 with
      | .str s3 =>
        match i4 with
        | .str s4 =>
          match i1 with
          | .str s1 =>
            match i2 with
            | .str s2 => .ok (some (assembleTender fetch s0 s1 s2 s3 s4 i5))
            | _ => .error "TypeError: response_item[2] has no attribute strip"
          | _ => .error "TypeError: response_item[1] has no attribute strip"
        | _ => .error "TypeError: html.unescape(response_item[4])"
      | _ => .error "TypeError: html.unescape(response_item[3])"
    | _ => .error "TypeError: html.unescape(response_item[0])"
  | _ => .ok none

/-- A JSON-compatible value, the codomain of `to_dict`. -/
inductive Json where
  | null
  | str (s : String)
  | arr (items : List Json)
  | obj (fields : List (String × Json))

/-- `SupportingDoc.to_dict` (src/models.py lines 37-38). -/
def SupportingDoc.to_dict (d : SupportingDoc) : Json :=
  .obj [("name", .str d.name), ("url", .str d.url)]

/-- `datetime.isoformat()` helpers: zero-padded decimal fields. -/
def pad2 (n : Nat) : String := if n < 10 then "0" ++ toString n else toString n

/-- Four-digit zero-padded year. -/
def pad4 (n : Nat) : String :=
  if n < 10 then "000" ++ toString n
  else if n < 100 then "00" ++ toString n
  else if n < 1000 then "0" ++ toString n
  else toString n

/-- `datetime.isoformat()` at second and microsecond zero:
`YYYY-MM-DDTHH:MM:SS`. -/
def isoformat (d : PyDateTime) : String :=
  pad4 d.year ++ "-" ++ pad2 d.month ++ "-" ++ pad2 d.day ++ "T"
    ++ pad2 d.hour ++ ":" ++ pad2 d.minute ++ ":00"

/-- `SanralTender.to_dict` (src/models.py lines 221-233): the base-class
mapping of seven fields (src/models.py lines 58-69), then `dict.update`
appending the five SANRAL-specific keys, none of which collides with a
base key, so insertion order is the base order followed by the update
order. -/
def to_dict (t : SanralTender) : List (String × Json) :=
  [("title", .str t.title),
   ("description", .str t.description),
   ("source", .str t.source),
   ("publishedDate", match t.published_date with
     | some d => .str (isoformat d)
     | Option.none => .null),
   ("closingDate", match t.closing_date with
     | some d => .str (isoformat d)
     | Option.none => .null),
   ("supporting_docs", .arr (t.supporting_docs.map SupportingDoc.to_dict)),
   ("tags", .arr (t.tags.map .str))]
  ++ [("tenderNumber", .str t.tender_number),
      ("category", .str t.category),
      ("region", .str t.region),
      ("email", .str t.email),
      ("fullNoticeText", .str t.full_notice_text)]

/-- The per-item loop of `lambda_handler` (src/lambda_function.py lines
83-101): each item goes through `from_api_response`; a `None` result and a
raised exception both increment the skipped count, an exception is caught
at the per-item boundary, and processing always continues with the
remaining items.  Returns the processed tenders in order and the skipped
count. -/
def lambdaProcessItems (fetch : FetchOracle) (items : List PyVal) :
    List SanralTender × Nat :=
  items.foldl
    (fun acc item =>
      match from_api_response fetch item with
      | .ok (some t) => (acc.1 ++ [t], acc.2)
      | .ok Option.none => (acc.1, acc.2 + 1)
      | .error _ => (acc.1, acc.2 + 1))
    ([], 0)


/-! ## Helper lemmas -/

theorem hrefTail_path_ne_empty {l : List Char} {p t : String}
    (h : hrefTail l = some (p, t)) : p ≠ "" := by
  unfold hrefTail at h
  split at h
  · exact absurd h (by simp)
  · split at h
    · split at h
      · simp only [Option.some.injEq, Prod.mk.injEq] at h
        obtain ⟨hp, _⟩ := h
        subst hp
        intro hc
        have hd : l.takeWhile (· ≠ '"') = [] := congrArg String.data hc
        simp_all
      · exact absurd h (by simp)
    · exact absurd h (by simp)

theorem findHrefAux_path_ne_empty {fuel : Nat} {l : List Char} {p t : String}
    (h : findHrefAux fuel l = some (p, t)) : p ≠ "" := by
  induction fuel generalizing l with
  | zero => simp [findHrefAux] at h
  | succ n ih =>
    cases l with
    | nil => simp [findHrefAux] at h
    | cons c rest =>
      unfold findHrefAux at h
      split at h
      · split at h
        · rename_i heq
          cases h
          exact hrefTail_path_ne_empty heq
        · exact ih h
      · exact ih h

theorem findHref_path_ne_empty {s : String} {p t : String}
    (h : findHref s = some (p, t)) : p ≠ "" :=
  findHrefAux_path_ne_empty h

/-! ## Claims -/

/-- C2: the spec claims the date parser handles all three supported
formats, in particular that `parse_sanral_date("31 December 2025. 14H00")`
returns the timestamp 2025-12-31T14:00.  The code strips every dot and
capital H from the input before trying the verbose format, but the format
string `'%d %B %Y. %HH%M'` still contains a literal dot and a literal H,
so the cleaned input can never match it and the verbose form always yields
`None` — the code contradicts its own comment about special handling for
strings such as `14H00`.  The first two formats do behave as claimed. -/
theorem parse_sanral_date_at_claimed_formats :
    parse_sanral_date (.str "31 December 2025. 14H00") = Option.none ∧
    parse_sanral_date (.str "2025/12/31 14:00") = some ⟨2025, 12, 31, 14, 0⟩ ∧
    parse_sanral_date (.str "31/12/2025") = some ⟨2025, 12, 31, 0, 0⟩ :=
  ⟨rfl, rfl, rfl⟩

/-- Row-shape rejection test of the source (src/models.py line 108): the
input is not a list, or is a list with fewer than six items. -/
def rowShapeInvalid (v : PyVal) : Bool :=
  match v with
  | .list l => decide (l.length < 6)
  | _ => true

/-- C3: a non-list input, or a list input with fewer than six elements,
yields `None` (no Tender) without raising, whatever the fetch oracle
does. -/
theorem from_api_response_rejects_short_rows (fetch : FetchOracle)
    (v : PyVal) (h : rowShapeInvalid v = true) :
    from_api_response fetch v = .ok Option.none := by
  cases v with
  | list l =>
    rcases l with _ | ⟨a, _ | ⟨b, _ | ⟨c, _ | ⟨d, _ | ⟨e, _ | ⟨f, rest⟩⟩⟩⟩⟩⟩ <;>
      first
        | rfl
        | (exfalso; simp [rowShapeInvalid] at h; omega)
  | str s => rfl
  | none => rfl
  | num n => rfl

/-- Witness for C3 at a one-element list. -/
theorem from_api_response_rejects_short_rows_witness :
    rowShapeInvalid (.list [.str "Only one item"]) = true ∧
    from_api_response (fun _ => Option.none) (.list [.str "Only one item"]) =
      .ok Option.none :=
  ⟨rfl, from_api_response_rejects_short_rows _ _ rfl⟩

/-- C9: totality of the date parser.  The embedding returns an `Option`
(all `strptime` errors are caught by the source, so no exception can
escape), and the result is absent for the empty string, for every
non-string value, and for every string matched by none of the three
format parsers. -/
theorem parse_sanral_date_total (v : PyVal)
    (h : v = .str "" ∨ (∀ s, v ≠ .str s) ∨
      ∃ s, v = .str s ∧
        parseFmtYmdHM (stripDotH (pyStrip s)).data = Option.none ∧
        parseFmtDmy (pyStrip s).data = Option.none ∧
        parseFmtVerbose (stripDotH (pyStrip s)).data = Option.none) :
    parse_sanral_date v = Option.none := by
  rcases h with h | h | ⟨s, rfl, h1, h2, h3⟩
  · subst h; rfl
  · cases v with
    | str s => exact absurd rfl (h s)
    | none => rfl
    | num n => rfl
    | list l => rfl
  · unfold parse_sanral_date
    by_cases he : s = ""
    · simp [he]
    · simp only [he, if_false]
      rw [h1, h2, h3]

/-- Witness for C9 at the empty string. -/
theorem parse_sanral_date_total_witness :
    parse_sanral_date (.str "") = Option.none :=
  parse_sanral_date_total _ (Or.inl rfl)

/-- C10: a list row of length six whose category position holds `None`
makes `from_api_response` raise (model: return `.error`) rather than
return `None` or a Tender — `.strip()` is called on a non-string outside
any `try` block — and the per-item loop of `lambda_handler` catches this,
counts the row as skipped, and still processes the remaining items. -/
theorem from_api_response_raises_on_non_string_field :
    from_api_response (fun _ => Option.none)
      (.list [.str "t", .none, .str "r", .str "d", .str "f",
              .str "2025/12/31 14:00"]) =
      .error "TypeError: response_item[1] has no attribute strip" ∧
    lambdaProcessItems (fun _ => Option.none)
      [.list [.str "t", .none, .str "r", .str "d", .str "f",
              .str "2025/12/31 14:00"],
       .list [.str "x", .str "Cat", .str "Reg", .str "D", .str "F", .str ""]] =
      ([{ title := "N/A", description := "D", source := "SANRAL",
          published_date := Option.none, closing_date := Option.none,
          supporting_docs := [], tags := [], tender_number := "N/A",
          category := "Cat", region := "Reg", email := "",
          full_notice_text := "F" }], 1) :=
  ⟨rfl, rfl⟩

/-- C7: `to_dict` is a flat mapping with exactly the twelve expected field
names in insertion order; the two date fields are the ISO-8601 rendering
of the timestamp when present and null when absent; tags and
supporting_docs are always JSON arrays (possibly empty), never null. -/
theorem to_dict_shape (t : SanralTender) :
    (to_dict t).map Prod.fst =
      ["title", "description", "source", "publishedDate", "closingDate",
       "supporting_docs", "tags", "tenderNumber", "category", "region",
       "email", "fullNoticeText"] ∧
    (to_dict t).lookup "publishedDate" =
      some (match t.published_date with
        | some d => Json.str (isoformat d)
        | Option.none => Json.null) ∧
    (to_dict t).lookup "closingDate" =
      some (match t.closing_date with
        | some d => Json.str (isoformat d)
        | Option.none => Json.null) ∧
    (∃ l, (to_dict t).lookup "tags" = some (Json.arr l)) ∧
    (∃ l, (to_dict t).lookup "supporting_docs" = some (Json.arr l)) := by
  refine ⟨rfl, ?_, ?_, ⟨t.tags.map Json.str, ?_⟩,
    ⟨t.supporting_docs.map SupportingDoc.to_dict, ?_⟩⟩ <;> rfl

/-! ### ASCII case-mapping lemmas -/

theorem toLower_toLower (c : Char) : c.toLower.toLower = c.toLower := by
  unfold Char.toLower
  by_cases h : c.toNat ≥ 65 ∧ c.toNat ≤ 90
  · rw [if_pos h]
    obtain ⟨h1, h2⟩ := h
    set n := c.toNat with hn
    interval_cases n <;> decide
  · rw [if_neg h, if_neg h]

theorem isLocalChar_toLower {c : Char} (h : isLocalChar c = true) :
    isLocalChar c.toLower = true := by
  unfold Char.toLower
  by_cases hr : c.toNat ≥ 65 ∧ c.toNat ≤ 90
  · rw [if_pos hr]
    obtain ⟨h1, h2⟩ := hr
    set n := c.toNat with hn
    interval_cases n <;> decide
  · rw [if_neg hr]; exact h

theorem isDomainChar_toLower {c : Char} (h : isDomainChar c = true) :
    isDomainChar c.toLower = true := by
  unfold Char.toLower
  by_cases hr : c.toNat ≥ 65 ∧ c.toNat ≤ 90
  · rw [if_pos hr]
    obtain ⟨h1, h2⟩ := hr
    set n := c.toNat with hn
    interval_cases n <;> decide
  · rw [if_neg hr]; exact h

theorem isAlpha_toLower {c : Char} (h : c.isAlpha = true) :
    c.toLower.isAlpha = true := by
  unfold Char.toLower
  by_cases hr : c.toNat ≥ 65 ∧ c.toNat ≤ 90
  · rw [if_pos hr]
    obtain ⟨h1, h2⟩ := hr
    set n := c.toNat with hn
    interval_cases n <;> decide
  · rw [if_neg hr]; exact h

/-! ### findLargest lemmas -/

theorem findLargest_eq_some {p : Nat → Bool} {n k : Nat}
    (h : findLargest p n = some k) : k < n ∧ p k = true := by
  induction n with
  | zero => simp [findLargest] at h
  | succ m ih =>
    unfold findLargest at h
    split at h
    · cases h
      exact ⟨Nat.lt_succ_self _, by assumption⟩
    · have := ih h
      exact ⟨Nat.lt_succ_of_lt this.1, this.2⟩

theorem findLargest_of {p : Nat → Bool} {n k : Nat} (hk : k < n)
    (hp : p k = true) (hmax : ∀ j, k < j → j < n → p j = false) :
    findLargest p n = some k := by
  induction n with
  | zero => omega
  | succ m ih =>
    unfold findLargest
    by_cases hm : p m = true
    · have hkm : k = m := by
        by_contra hne
        have hlt : k < m := by omega
        have := hmax m hlt (Nat.lt_succ_self m)
        rw [this] at hm
        exact absurd hm (by simp)
      rw [if_pos hm, hkm]
    · have hkm : k ≠ m := fun he => hm (he ▸ hp)
      rw [if_neg hm]
      exact ih (by omega) (fun j hj1 hj2 => hmax j hj1 (by omega))

/-! ### List helper lemmas -/

theorem takeWhile_eq_of_all {α : Type} {p : α → Bool} {l : List α}
    (h : ∀ x ∈ l, p x = true) : l.takeWhile p = l :=
  List.takeWhile_eq_self_iff.mpr h

theorem takeWhile_append_of_all {α : Type} {p : α → Bool} {l1 l2 : List α}
    (h : ∀ x ∈ l1, p x = true) :
    (l1 ++ l2).takeWhile p = l1 ++ l2.takeWhile p := by
  rw [List.takeWhile_append, if_pos]
  rw [takeWhile_eq_of_all h]

theorem getD_append_length {α : Type} (l1 : List α) (x : α) (l2 : List α)
    (d : α) : (l1 ++ x :: l2).getD l1.length d = x := by
  induction l1 with
  | nil => rfl
  | cons c r ih => simpa using ih

theorem getD_append_add {α : Type} (l1 l2 : List α) (i : Nat) (d : α) :
    (l1 ++ l2).getD (l1.length + i) d = l2.getD i d := by
  induction l1 with
  | nil => simp
  | cons c r ih => simpa [Nat.succ_add] using ih

theorem getD_mem_of_lt {α : Type} {l : List α} {i : Nat} (d : α)
    (h : i < l.length) : l.getD i d ∈ l := by
  induction l generalizing i with
  | nil => simp at h
  | cons c r ih =>
    cases i with
    | zero => simp [List.getD]
    | succ j =>
      have := ih (i := j) (by simpa using h)
      simp [List.getD] at this ⊢
      exact Or.inr this

theorem getLast?_mem {α : Type} {l : List α} {a : α}
    (h : l.getLast? = some a) : a ∈ l := by
  induction l with
  | nil => simp at h
  | cons c r ih =>
    cases r with
    | nil =>
      simp [List.getLast?] at h
      simp [h]
    | cons y t =>
      rw [List.getLast?_cons_cons] at h
      exact List.mem_cons_of_mem c (ih h)

/-! ### Email match structure lemmas -/

theorem matchEmailAt_shape {l m after : List Char}
    (h : matchEmailAt l = some (m, after)) :
    ∃ loc dom tld : List Char,
      m = loc ++ '@' :: (dom ++ '.' :: tld) ∧ loc ≠ [] ∧
      (∀ c ∈ loc, isLocalChar c = true) ∧ dom ≠ [] ∧
      (∀ c ∈ dom, isDomainChar c = true) ∧
      (∀ c ∈ tld, c.isAlpha = true) ∧ 2 ≤ tld.length := by
  unfold matchEmailAt at h
  split at h
  · rename_i r1 heq
    split at h
    · exact absurd h (by simp)
    · rename_i hne
      split at h
      · rename_i k hfl
        simp only [Option.some.injEq, Prod.mk.injEq] at h
        obtain ⟨hm, _⟩ := h
        obtain ⟨hk, hok⟩ := findLargest_eq_some hfl
        simp only [dotSplitOk, Bool.and_eq_true, decide_eq_true_eq] at hok
        obtain ⟨⟨hk1, _⟩, htld⟩ := hok
        refine ⟨l.takeWhile isLocalChar, (r1.takeWhile isDomainChar).take k,
          ((r1.takeWhile isDomainChar).drop (k + 1)).takeWhile Char.isAlpha,
          hm.symm, ?_, ?_, ?_, ?_, ?_, htld⟩
        · intro hc
          rw [hc] at hne
          simp at hne
        · intro c hc
          have := List.all_takeWhile (p := isLocalChar) (l := l)
          rw [List.all_eq_true] at this
          exact this c hc
        · apply List.ne_nil_of_length_pos
          rw [List.length_take]
          omega
        · intro c hc
          have hsub : c ∈ r1.takeWhile isDomainChar := List.take_subset _ _ hc
          have := List.all_takeWhile (p := isDomainChar) (l := r1)
          rw [List.all_eq_true] at this
          exact this c hsub
        · intro c hc
          have := List.all_takeWhile (p := Char.isAlpha)
            (l := (r1.takeWhile isDomainChar).drop (k + 1))
          rw [List.all_eq_true] at this
          exact this c hc
      · exact absurd h (by simp)
  · exact absurd h (by simp)

theorem isDomainChar_of_isAlpha {c : Char} (h : c.isAlpha = true) :
    isDomainChar c = true := by
  unfold isDomainChar
  rw [h]
  rfl

theorem matchEmailAt_full_of_shape {loc dom tld : List Char}
    (hloc : loc ≠ []) (h1 : ∀ c ∈ loc, isLocalChar c = true)
    (hdom : dom ≠ []) (h2 : ∀ c ∈ dom, isDomainChar c = true)
    (h3 : ∀ c ∈ tld, c.isAlpha = true) (h4 : 2 ≤ tld.length) :
    matchEmailAt (loc ++ '@' :: (dom ++ '.' :: tld)) =
      some (loc ++ '@' :: (dom ++ '.' :: tld), []) := by
  have e1 : (loc ++ '@' :: (dom ++ '.' :: tld)).takeWhile isLocalChar = loc := by
    rw [takeWhile_append_of_all h1, List.takeWhile_cons_of_neg (by decide)]
    simp
  have e2 : (loc ++ '@' :: (dom ++ '.' :: tld)).drop loc.length =
      '@' :: (dom ++ '.' :: tld) := List.drop_left loc _
  have hall : ∀ c ∈ dom ++ '.' :: tld, isDomainChar c = true := by
    intro c hc
    rcases List.mem_append.mp hc with hc | hc
    · exact h2 c hc
    · rcases List.mem_cons.mp hc with rfl | hc
      · decide
      · exact isDomainChar_of_isAlpha (h3 c hc)
  have e3 : (dom ++ '.' :: tld).takeWhile isDomainChar = dom ++ '.' :: tld :=
    takeWhile_eq_of_all hall
  have e4 : (dom ++ '.' :: tld).drop (dom.length + 1) = tld := by
    have hsplit : dom ++ '.' :: tld = (dom ++ ['.']) ++ tld := by simp
    rw [hsplit, List.drop_left' (by simp)]
  have e5 : ((dom ++ '.' :: tld).drop (dom.length + 1)).takeWhile Char.isAlpha
      = tld := by
    rw [e4]
    exact takeWhile_eq_of_all h3
  have hlen0 : (dom ++ '.' :: tld).length = dom.length + 1 + tld.length := by
    simp
    omega
  have hfl : findLargest (dotSplitOk (dom ++ '.' :: tld))
      (dom ++ '.' :: tld).length = some dom.length := by
    apply findLargest_of
    · omega
    · simp only [dotSplitOk, Bool.and_eq_true, decide_eq_true_eq]
      refine ⟨⟨?_, ?_⟩, ?_⟩
      · have := List.length_pos.mpr hdom
        omega
      · exact getD_append_length dom '.' tld ' '
      · rw [e5]
        exact h4
    · intro j hj1 hj2
      obtain ⟨i, rfl⟩ : ∃ i, j = dom.length + 1 + i := ⟨j - (dom.length + 1), by omega⟩
      have hi : i < tld.length := by omega
      have hg : (dom ++ '.' :: tld).getD (dom.length + 1 + i) ' ' =
          tld.getD i ' ' := by
        have hsplit : dom ++ '.' :: tld = (dom ++ ['.']) ++ tld := by simp
        have hl : dom.length + 1 + i = (dom ++ ['.']).length + i := by simp
        rw [hsplit, hl, getD_append_add]
      have halpha : (tld.getD i ' ').isAlpha = true :=
        h3 _ (getD_mem_of_lt ' ' hi)
      have hne : ¬ tld.getD i ' ' = '.' := by
        intro hcc
        rw [hcc] at halpha
        exact absurd halpha (by decide)
      have hged : (dom ++ '.' :: tld).getD (dom.length + 1 + i) ' ' ≠ '.' := by
        rw [hg]
        exact hne
      simp only [dotSplitOk, Bool.and_eq_true, decide_eq_true_eq,
        Bool.and_eq_false_iff, decide_eq_false_iff_not]
      exact Or.inl (Or.inr hged)
  have hne2 : ¬ (loc.isEmpty = true) := by
    simp [List.isEmpty_iff, hloc]
  have e6 : (dom ++ '.' :: tld).drop (dom.length + 1 + tld.length) = [] :=
    List.drop_eq_nil_iff.mpr (by omega)
  unfold matchEmailAt
  rw [e1, e2]
  simp only [e3, hfl, if_neg hne2, e5, e6, List.take_left' rfl]

theorem findEmailsAux_shape {fuel : Nat} {l m : List Char}
    (h : m ∈ findEmailsAux fuel l) :
    ∃ loc dom tld : List Char,
      m = loc ++ '@' :: (dom ++ '.' :: tld) ∧ loc ≠ [] ∧
      (∀ c ∈ loc, isLocalChar c = true) ∧ dom ≠ [] ∧
      (∀ c ∈ dom, isDomainChar c = true) ∧
      (∀ c ∈ tld, c.isAlpha = true) ∧ 2 ≤ tld.length := by
  induction fuel generalizing l with
  | zero => simp [findEmailsAux] at h
  | succ n ih =>
    cases l with
    | nil => simp [findEmailsAux] at h
    | cons c rest =>
      unfold findEmailsAux at h
      split at h
      · rename_i m0 after heq
        rcases List.mem_cons.mp h with rfl | h2
        · exact matchEmailAt_shape heq
        · exact ih h2
      · exact ih h

/-- The lowercasing of any `findall` email match is itself a full match of
the email pattern, and lowercasing it again changes nothing. -/
theorem mem_findEmails_lower {s : String} {m : String}
    (h : m ∈ findEmails s) :
    validEmail (pyLower m) ∧ pyLower (pyLower m) = pyLower m := by
  obtain ⟨cs, hcs, rfl⟩ := List.mem_map.mp h
  obtain ⟨loc, dom, tld, rfl, hloc, h1, hdom, h2, h3, h4⟩ :=
    findEmailsAux_shape hcs
  constructor
  · unfold validEmail pyLower
    have hmap : (loc ++ '@' :: (dom ++ '.' :: tld)).map Char.toLower =
        loc.map Char.toLower ++ '@' ::
          (dom.map Char.toLower ++ '.' :: tld.map Char.toLower) := by
      simp
    show matchEmailAt ((loc ++ '@' :: (dom ++ '.' :: tld)).map Char.toLower) =
      some ((loc ++ '@' :: (dom ++ '.' :: tld)).map Char.toLower, [])
    rw [hmap]
    apply matchEmailAt_full_of_shape
    · simp [hloc]
    · intro c hc
      obtain ⟨c0, hc0, rfl⟩ := List.mem_map.mp hc
      exact isLocalChar_toLower (h1 c0 hc0)
    · simp [hdom]
    · intro c hc
      obtain ⟨c0, hc0, rfl⟩ := List.mem_map.mp hc
      exact isDomainChar_toLower (h2 c0 hc0)
    · intro c hc
      obtain ⟨c0, hc0, rfl⟩ := List.mem_map.mp hc
      exact isAlpha_toLower (h3 c0 hc0)
    · simpa using h4
  · unfold pyLower
    simp only [List.map_map]
    refine congrArg _ (List.map_congr_left ?_)
    intro c _
    exact toLower_toLower c

theorem extractEmail_spec (fnt : String) :
    (findEmails fnt = [] ∧ extractEmail fnt = "") ∨
    (∃ m, (findEmails fnt).getLast? = some m ∧ extractEmail fnt = pyLower m ∧
      validEmail (extractEmail fnt) ∧
      pyLower (extractEmail fnt) = extractEmail fnt) := by
  cases hg : (findEmails fnt).getLast? with
  | none =>
    left
    have hnil : findEmails fnt = [] := by
      cases hl : findEmails fnt with
      | nil => rfl
      | cons a t =>
        rw [hl, List.getLast?_eq_getLast _ (by simp)] at hg
        simp at hg
    refine ⟨hnil, ?_⟩
    unfold extractEmail
    rw [hg]
  | some m =>
    right
    have hmem : m ∈ findEmails fnt := getLast?_mem hg
    have hprops := mem_findEmails_lower hmem
    have hval : extractEmail fnt = pyLower m := by
      unfold extractEmail
      rw [hg]
    refine ⟨m, rfl, hval, ?_, ?_⟩
    · rw [hval]; exact hprops.1
    · rw [hval]; exact hprops.2

theorem from_api_response_ok_some {fetch : FetchOracle} {v : PyVal}
    {t : SanralTender} (h : from_api_response fetch v = .ok (some t)) :
    ∃ s0 s1 s2 s3 s4 i5 rest, v =
      .list (.str s0 :: .str s1 :: .str s2 :: .str s3 :: .str s4 :: i5 :: rest)
      ∧ t = assembleTender fetch s0 s1 s2 s3 s4 i5 := by
  cases v with
  | str s => exact absurd h (by intro hc; simp [from_api_response] at hc)
  | none => exact absurd h (by intro hc; simp [from_api_response] at hc)
  | num n => exact absurd h (by intro hc; simp [from_api_response] at hc)
  | list l =>
    rcases l with _ | ⟨i0, _ | ⟨i1, _ | ⟨i2, _ | ⟨i3, _ | ⟨i4, _ | ⟨i5, rest⟩⟩⟩⟩⟩⟩ <;>
      try (exfalso; revert h; simp [from_api_response]; done)
    cases i0 <;> try (exfalso; revert h; simp [from_api_response]; done)
    rename_i s0
    cases i3 <;> try (exfalso; revert h; simp [from_api_response]; done)
    rename_i s3
    cases i4 <;> try (exfalso; revert h; simp [from_api_response]; done)
    rename_i s4
    cases i1 <;> try (exfalso; revert h; simp [from_api_response]; done)
    rename_i s1
    cases i2 <;> try (exfalso; revert h; simp [from_api_response]; done)
    rename_i s2
    simp only [from_api_response, Except.ok.injEq, Option.some.injEq] at h
    exact ⟨s0, s1, s2, s3, s4, i5, rest, rfl, h.symm⟩

/-- C4: over the final full notice text (the text whose title-cased form
is stored in the Tender), the email field is the last `findall` match
lowercased when there is at least one match, and the empty string when the
text has no match. -/
theorem from_api_response_email_rule (fetch : FetchOracle) (v : PyVal)
    (t : SanralTender) (h : from_api_response fetch v = .ok (some t)) :
    ∃ fnt : String, t.full_notice_text = pyTitle fnt ∧
      ((findEmails fnt = [] ∧ t.email = "") ∨
        (∃ m, (findEmails fnt).getLast? = some m ∧ t.email = pyLower m)) := by
  obtain ⟨s0, s1, s2, s3, s4, i5, rest, rfl, rfl⟩ := from_api_response_ok_some h
  refine ⟨(enrichedParts fetch (titleFieldParts s0).1 (titleFieldParts s0).2
    (initialDescription s3) (collapseWs (htmlUnescape s4))).2.2.1, rfl, ?_⟩
  rcases extractEmail_spec ((enrichedParts fetch (titleFieldParts s0).1
      (titleFieldParts s0).2 (initialDescription s3)
      (collapseWs (htmlUnescape s4))).2.2.1) with ⟨hn, he⟩ | ⟨m, hg, he, _, _⟩
  · exact Or.inl ⟨hn, he⟩
  · exact Or.inr ⟨m, hg, he⟩

/-- C6: output invariants of every Tender the factory returns: fixed
source literal, empty tags, upper-cased tender number, trimmed and
title-cased category and region, title-cased title, description and full
notice text, and an email that is either empty or a lowercase full match
of the email pattern. -/
theorem from_api_response_output_invariants (fetch : FetchOracle)
    (v : PyVal) (t : SanralTender)
    (h : from_api_response fetch v = .ok (some t)) :
    t.source = "SANRAL" ∧ t.tags = [] ∧
    (∃ s, t.tender_number = pyUpper s) ∧
    (∃ s, t.category = pyTitle (pyStrip s)) ∧
    (∃ s, t.region = pyTitle (pyStrip s)) ∧
    (∃ s, t.title = pyTitle s) ∧
    (∃ s, t.description = pyTitle s) ∧
    (∃ s, t.full_notice_text = pyTitle s) ∧
    (t.email = "" ∨ (pyLower t.email = t.email ∧ validEmail t.email)) := by
  obtain ⟨s0, s1, s2, s3, s4, i5, rest, rfl, rfl⟩ := from_api_response_ok_some h
  refine ⟨rfl, rfl, ⟨(titleFieldParts s0).2, rfl⟩, ⟨s1, rfl⟩, ⟨s2, rfl⟩,
    ⟨(enrichedParts fetch (titleFieldParts s0).1 (titleFieldParts s0).2
      (initialDescription s3) (collapseWs (htmlUnescape s4))).1, rfl⟩,
    ⟨(enrichedParts fetch (titleFieldParts s0).1 (titleFieldParts s0).2
      (initialDescription s3) (collapseWs (htmlUnescape s4))).2.1, rfl⟩,
    ⟨(enrichedParts fetch (titleFieldParts s0).1 (titleFieldParts s0).2
      (initialDescription s3) (collapseWs (htmlUnescape s4))).2.2.1, rfl⟩, ?_⟩
  rcases extractEmail_spec ((enrichedParts fetch (titleFieldParts s0).1
      (titleFieldParts s0).2 (initialDescription s3)
      (collapseWs (htmlUnescape s4))).2.2.1) with ⟨_, he⟩ | ⟨m, _, _, hv, hl⟩
  · exact Or.inl he
  · exact Or.inr ⟨hl, hv⟩

theorem assembleTender_no_link {fetch : FetchOracle} {s0 : String}
    (s1 s2 s3 s4 : String) (v5 : PyVal)
    (hlink : findHref (htmlUnescape s0) = Option.none) :
    assembleTender fetch s0 s1 s2 s3 s4 v5 =
      { title := "N/A", description := pyTitle (initialDescription s3),
        source := "SANRAL", published_date := Option.none,
        closing_date := parse_sanral_date v5, supporting_docs := [],
        tags := [], tender_number := "N/A",
        category := pyTitle (pyStrip s1), region := pyTitle (pyStrip s2),
        email := extractEmail (collapseWs (htmlUnescape s4)),
        full_notice_text := pyTitle (collapseWs (htmlUnescape s4)) } := by
  unfold assembleTender titleFieldParts enrichedParts
  rw [hlink]
  rfl

theorem assembleTender_link_fetchfail {fetch : FetchOracle} {s0 p tx : String}
    (s1 s2 s3 s4 : String) (v5 : PyVal)
    (hlink : findHref (htmlUnescape s0) = some (p, tx))
    (hfail : fetch ("https://www.nra.co.za" ++ p) = Option.none) :
    assembleTender fetch s0 s1 s2 s3 s4 v5 =
      { title := pyTitle (collapseWs tx),
        description := pyTitle (initialDescription s3),
        source := "SANRAL", published_date := Option.none,
        closing_date := parse_sanral_date v5,
        supporting_docs := [⟨"Tender Details", "https://www.nra.co.za" ++ p⟩],
        tags := [], tender_number := pyUpper (collapseWs tx),
        category := pyTitle (pyStrip s1), region := pyTitle (pyStrip s2),
        email := extractEmail (collapseWs (htmlUnescape s4)),
        full_notice_text := pyTitle (collapseWs (htmlUnescape s4)) } := by
  have hp : p ≠ "" := findHref_path_ne_empty hlink
  unfold assembleTender titleFieldParts enrichedParts
  rw [hlink]
  simp [hp, hfail]

/-- C1: for a well-shaped row of six string fields whose title holds a
hyperlink, a failing detail fetch (the oracle returns `none`, standing for
the caught network error or non-success status) still yields a Tender
carrying the provisional title, description and full notice text, the
row-derived tender number, category and region, and an absent published
date; the failure never escapes as an exception (the result is `.ok`). -/
theorem from_api_response_fetch_failure_keeps_provisional
    (fetch : FetchOracle) (s0 s1 s2 s3 s4 s5 : String) (rest : List PyVal)
    (p tx : String)
    (hlink : findHref (htmlUnescape s0) = some (p, tx))
    (hfail : fetch ("https://www.nra.co.za" ++ p) = Option.none) :
    from_api_response fetch
      (.list (.str s0 :: .str s1 :: .str s2 :: .str s3 :: .str s4 ::
        .str s5 :: rest)) =
      .ok (some
        { title := pyTitle (collapseWs tx),
          description := pyTitle (initialDescription s3),
          source := "SANRAL", published_date := Option.none,
          closing_date := parse_sanral_date (.str s5),
          supporting_docs := [⟨"Tender Details", "https://www.nra.co.za" ++ p⟩],
          tags := [], tender_number := pyUpper (collapseWs tx),
          category := pyTitle (pyStrip s1), region := pyTitle (pyStrip s2),
          email := extractEmail (collapseWs (htmlUnescape s4)),
          full_notice_text := pyTitle (collapseWs (htmlUnescape s4)) }) := by
  show Except.ok (some (assembleTender fetch s0 s1 s2 s3 s4 (.str s5))) = _
  rw [assembleTender_link_fetchfail s1 s2 s3 s4 (.str s5) hlink hfail]

/-- Witness for C1 at a concrete row and an always-failing fetch. -/
theorem from_api_response_fetch_failure_keeps_provisional_witness :
    from_api_response (fun _ => Option.none)
      (.list [.str "<a href=\"/t/1\">RFP 1</a>", .str "c", .str "r",
        .str "d", .str "f", .str ""]) =
      .ok (some
        { title := "Rfp 1", description := "D", source := "SANRAL",
          published_date := Option.none, closing_date := Option.none,
          supporting_docs :=
            [⟨"Tender Details", "https://www.nra.co.za/t/1"⟩],
          tags := [], tender_number := "RFP 1", category := "C",
          region := "R", email := "", full_notice_text := "F" }) :=
  from_api_response_fetch_failure_keeps_provisional
    (fun _ => Option.none) "<a href=\"/t/1\">RFP 1</a>" "c" "r" "d" "f" "" []
    "/t/1" "RFP 1" rfl rfl

/-- C5: when the title field has no hyperlink, the Tender has tender
number N/A, no supporting documents and an absent published date, and the
result does not depend on the fetch oracle at all (no detail fetch is
attempted); when a hyperlink is found, the supporting-document list is
exactly one entry named Tender Details whose URL is the portal origin
prefixed to the href path. -/
theorem title_hyperlink_determines_docs (fetch fetch2 : FetchOracle)
    (s0 s1 s2 s3 s4 s5 : String) (rest : List PyVal) :
    (findHref (htmlUnescape s0) = Option.none →
      from_api_response fetch
        (.list (.str s0 :: .str s1 :: .str s2 :: .str s3 :: .str s4 ::
          .str s5 :: rest)) =
      from_api_response fetch2
        (.list (.str s0 :: .str s1 :: .str s2 :: .str s3 :: .str s4 ::
          .str s5 :: rest)) ∧
      from_api_response fetch
        (.list (.str s0 :: .str s1 :: .str s2 :: .str s3 :: .str s4 ::
          .str s5 :: rest)) =
        .ok (some
          { title := "N/A", description := pyTitle (initialDescription s3),
            source := "SANRAL", published_date := Option.none,
            closing_date := parse_sanral_date (.str s5),
            supporting_docs := [], tags := [], tender_number := "N/A",
            category := pyTitle (pyStrip s1), region := pyTitle (pyStrip s2),
            email := extractEmail (collapseWs (htmlUnescape s4)),
            full_notice_text := pyTitle (collapseWs (htmlUnescape s4)) })) ∧
    (∀ p tx, findHref (htmlUnescape s0) = some (p, tx) →
      ∃ t, from_api_response fetch
        (.list (.str s0 :: .str s1 :: .str s2 :: .str s3 :: .str s4 ::
          .str s5 :: rest)) = .ok (some t) ∧
        t.supporting_docs =
          [⟨"Tender Details", "https://www.nra.co.za" ++ p⟩]) := by
  constructor
  · intro h
    constructor
    · show Except.ok (some (assembleTender fetch s0 s1 s2 s3 s4 (.str s5))) =
        Except.ok (some (assembleTender fetch2 s0 s1 s2 s3 s4 (.str s5)))
      rw [assembleTender_no_link s1 s2 s3 s4 (.str s5) h,
        assembleTender_no_link s1 s2 s3 s4 (.str s5) h]
    · show Except.ok (some (assembleTender fetch s0 s1 s2 s3 s4 (.str s5))) = _
      rw [assembleTender_no_link s1 s2 s3 s4 (.str s5) h]
  · intro p tx h
    refine ⟨assembleTender fetch s0 s1 s2 s3 s4 (.str s5), rfl, ?_⟩
    have hp : p ≠ "" := findHref_path_ne_empty h
    show (assembleTender fetch s0 s1 s2 s3 s4 (.str s5)).supporting_docs = _
    unfold assembleTender titleFieldParts
    rw [h]
    simp [hp]

/-- Witness for C5: the first part at a linkless row with two different
oracles, the second at a row with a hyperlink. -/
theorem title_hyperlink_determines_docs_witness :
    (from_api_response (fun _ => some ⟨some "T", Option.none, Option.none,
        Option.none⟩)
      (.list [.str "X", .str "c", .str "r", .str "d", .str "f", .str ""]) =
      from_api_response (fun _ => Option.none)
      (.list [.str "X", .str "c", .str "r", .str "d", .str "f", .str ""])) ∧
    (∃ t, from_api_response (fun _ => Option.none)
      (.list [.str "<a href=\"/t/2\">N 2</a>", .str "c", .str "r", .str "d",
        .str "f", .str ""]) = .ok (some t) ∧
      t.supporting_docs =
        [⟨"Tender Details", "https://www.nra.co.za/t/2"⟩]) :=
  ⟨((title_hyperlink_determines_docs
      (fun _ => some ⟨some "T", Option.none, Option.none, Option.none⟩)
      (fun _ => Option.none) "X" "c" "r" "d" "f" "" []).1 rfl).1,
   (title_hyperlink_determines_docs (fun _ => Option.none)
      (fun _ => Option.none) "<a href=\"/t/2\">N 2</a>" "c" "r" "d" "f" ""
      []).2 "/t/2" "N 2" rfl⟩

/-- Definition following the words of the spec sentence behind claim C8
(for comparison with the source behaviour): the summary description field
is entity-decoded, whitespace-collapsed, and has the boilerplate literal
stripped only when it occurs as a leading piece of the text, all other
text being preserved. -/
def spec_provisionalDescription (s : String) : String :=
  if "Tender Notice:".data.isPrefixOf (collapseWs (htmlUnescape s)).data then
    pyStrip ⟨(collapseWs (htmlUnescape s)).data.drop
      "Tender Notice:".data.length⟩
  else collapseWs (htmlUnescape s)

/-- Counterexample for C8: the source (src/models.py line 143) deletes
every occurrence of the literal `Tender Notice:` with `str.replace`, not
only a leading one.  On the row whose summary description is
`A Tender Notice: B` the produced description is `A  B`, while the claim
(text other than a leading prefix preserved) demands
`A Tender Notice: B`. -/
theorem description_strips_every_occurrence :
    from_api_response (fun _ => Option.none)
      (.list [.str "X", .str "c", .str "r", .str "A Tender Notice: B",
        .str "f", .str ""]) =
      .ok (some
        { title := "N/A", description := "A  B", source := "SANRAL",
          published_date := Option.none, closing_date := Option.none,
          supporting_docs := [], tags := [], tender_number := "N/A",
          category := "C", region := "R", email := "",
          full_notice_text := "F" }) ∧
    pyTitle (spec_provisionalDescription "A Tender Notice: B") =
      "A Tender Notice: B" ∧
    ("A  B" : String) ≠ "A Tender Notice: B" :=
  ⟨rfl, rfl, by decide⟩

/-- C8 as amended: the provisional description is the summary description
field entity-decoded, whitespace-collapsed, with every occurrence of the
literal `Tender Notice:` removed (not only a leading one) and surrounding
whitespace stripped.  Stated on linkless rows, where the provisional
description reaches the Tender unchanged apart from title-casing. -/
theorem provisional_description_pipeline (fetch : FetchOracle)
    (s0 s1 s2 s3 s4 s5 : String) (rest : List PyVal)
    (h : findHref (htmlUnescape s0) = Option.none) :
    ∃ t, from_api_response fetch
      (.list (.str s0 :: .str s1 :: .str s2 :: .str s3 :: .str s4 ::
        .str s5 :: rest)) = .ok (some t) ∧
      t.description = pyTitle (pyStrip (removeLiteral "Tender Notice:"
        (collapseWs (htmlUnescape s3)))) := by
  refine ⟨assembleTender fetch s0 s1 s2 s3 s4 (.str s5), rfl, ?_⟩
  rw [assembleTender_no_link s1 s2 s3 s4 (.str s5) h]
  rfl

/-- Witness for the amended C8 at a concrete linkless row. -/
theorem provisional_description_pipeline_witness :
    ∃ t, from_api_response (fun _ => Option.none)
      (.list [.str "Y", .str "c", .str "r", .str "A Tender Notice: B",
        .str "f", .str ""]) = .ok (some t) ∧
      t.description = pyTitle (pyStrip (removeLiteral "Tender Notice:"
        (collapseWs (htmlUnescape "A Tender Notice: B")))) :=
  provisional_description_pipeline (fun _ => Option.none) "Y" "c" "r"
    "A Tender Notice: B" "f" "" [] rfl

/-- Witness for C4 at a row whose notice text holds two addresses: the
email is the last match, lowercased. -/
theorem from_api_response_email_rule_witness :
    ∃ fnt : String,
      (SanralTender.full_notice_text
        { title := "N/A", description := "D", source := "SANRAL",
          published_date := Option.none, closing_date := Option.none,
          supporting_docs := [], tags := [], tender_number := "N/A",
          category := "C", region := "R", email := "b@y.com",
          full_notice_text := "Contact A@X.Com Or B@Y.Com" }) = pyTitle fnt ∧
      ((findEmails fnt = [] ∧
        (SanralTender.email
          { title := "N/A", description := "D", source := "SANRAL",
            published_date := Option.none, closing_date := Option.none,
            supporting_docs := [], tags := [], tender_number := "N/A",
            category := "C", region := "R", email := "b@y.com",
            full_notice_text := "Contact A@X.Com Or B@Y.Com" }) = "") ∨
        (∃ m, (findEmails fnt).getLast? = some m ∧
          (SanralTender.email
            { title := "N/A", description := "D", source := "SANRAL",
              published_date := Option.none, closing_date := Option.none,
              supporting_docs := [], tags := [], tender_number := "N/A",
              category := "C", region := "R", email := "b@y.com",
              full_notice_text := "Contact A@X.Com Or B@Y.Com" }) =
            pyLower m)) :=
  from_api_response_email_rule (fun _ => Option.none)
    (.list [.str "x", .str "c", .str "r", .str "d",
      .str "Contact a@x.com or B@Y.com", .str ""]) _ rfl

/-- Witness for C6 at a row with untrimmed category and an address in the
notice text. -/
theorem from_api_response_output_invariants_witness :
    (SanralTender.source
      { title := "N/A", description := "Desc", source := "SANRAL",
        published_date := Option.none,
        closing_date := some ⟨2025, 12, 31, 0, 0⟩,
        supporting_docs := [], tags := [], tender_number := "N/A",
        category := "Cat", region := "Reg", email := "info@example.com",
        full_notice_text := "Mail Me: Info@Example.Com" }) = "SANRAL" ∧
    (SanralTender.tags
      { title := "N/A", description := "Desc", source := "SANRAL",
        published_date := Option.none,
        closing_date := some ⟨2025, 12, 31, 0, 0⟩,
        supporting_docs := [], tags := [], tender_number := "N/A",
        category := "Cat", region := "Reg", email := "info@example.com",
        full_notice_text := "Mail Me: Info@Example.Com" }) = [] ∧
    (∃ s, (SanralTender.tender_number
      { title := "N/A", description := "Desc", source := "SANRAL",
        published_date := Option.none,
        closing_date := some ⟨2025, 12, 31, 0, 0⟩,
        supporting_docs := [], tags := [], tender_number := "N/A",
        category := "Cat", region := "Reg", email := "info@example.com",
        full_notice_text := "Mail Me: Info@Example.Com" }) = pyUpper s) ∧
    (∃ s, (SanralTender.category
      { title := "N/A", description := "Desc", source := "SANRAL",
        published_date := Option.none,
        closing_date := some ⟨2025, 12, 31, 0, 0⟩,
        supporting_docs := [], tags := [], tender_number := "N/A",
        category := "Cat", region := "Reg", email := "info@example.com",
        full_notice_text := "Mail Me: Info@Example.Com" }) =
        pyTitle (pyStrip s)) ∧
    (∃ s, (SanralTender.region
      { title := "N/A", description := "Desc", source := "SANRAL",
        published_date := Option.none,
        closing_date := some ⟨2025, 12, 31, 0, 0⟩,
        supporting_docs := [], tags := [], tender_number := "N/A",
        category := "Cat", region := "Reg", email := "info@example.com",
        full_notice_text := "Mail Me: Info@Example.Com" }) =
        pyTitle (pyStrip s)) ∧
    (∃ s, (SanralTender.title
      { title := "N/A", description := "Desc", source := "SANRAL",
        published_date := Option.none,
        closing_date := some ⟨2025, 12, 31, 0, 0⟩,
        supporting_docs := [], tags := [], tender_number := "N/A",
        category := "Cat", region := "Reg", email := "info@example.com",
        full_notice_text := "Mail Me: Info@Example.Com" }) = pyTitle s) ∧
    (∃ s, (SanralTender.description
      { title := "N/A", description := "Desc", source := "SANRAL",
        published_date := Option.none,
        closing_date := some ⟨2025, 12, 31, 0, 0⟩,
        supporting_docs := [], tags := [], tender_number := "N/A",
        category := "Cat", region := "Reg", email := "info@example.com",
        full_notice_text := "Mail Me: Info@Example.Com" }) = pyTitle s) ∧
    (∃ s, (SanralTender.full_notice_text
      { title := "N/A", description := "Desc", source := "SANRAL",
        published_date := Option.none,
        closing_date := some ⟨2025, 12, 31, 0, 0⟩,
        supporting_docs := [], tags := [], tender_number := "N/A",
        category := "Cat", region := "Reg", email := "info@example.com",
        full_notice_text := "Mail Me: Info@Example.Com" }) = pyTitle s) ∧
    ((SanralTender.email
      { title := "N/A", description := "Desc", source := "SANRAL",
        published_date := Option.none,
        closing_date := some ⟨2025, 12, 31, 0, 0⟩,
        supporting_docs := [], tags := [], tender_number := "N/A",
        category := "Cat", region := "Reg", email := "info@example.com",
        full_notice_text := "Mail Me: Info@Example.Com" }) = "" ∨
      (pyLower (SanralTender.email
        { title := "N/A", description := "Desc", source := "SANRAL",
          published_date := Option.none,
          closing_date := some ⟨2025, 12, 31, 0, 0⟩,
          supporting_docs := [], tags := [], tender_number := "N/A",
          category := "Cat", region := "Reg", email := "info@example.com",
          full_notice_text := "Mail Me: Info@Example.Com" }) =
        (SanralTender.email
          { title := "N/A", description := "Desc", source := "SANRAL",
            published_date := Option.none,
            closing_date := some ⟨2025, 12, 31, 0, 0⟩,
            supporting_docs := [], tags := [], tender_number := "N/A",
            category := "Cat", region := "Reg", email := "info@example.com",
            full_notice_text := "Mail Me: Info@Example.Com" }) ∧
        validEmail (SanralTender.email
          { title := "N/A", description := "Desc", source := "SANRAL",
            published_date := Option.none,
            closing_date := some ⟨2025, 12, 31, 0, 0⟩,
            supporting_docs := [], tags := [], tender_number := "N/A",
            category := "Cat", region := "Reg", email := "info@example.com",
            full_notice_text := "Mail Me: Info@Example.Com" }))) :=
  from_api_response_output_invariants (fun _ => Option.none)
    (.list [.str "w", .str " cat ", .str "reg", .str "desc",
      .str "mail me: Info@Example.COM", .str "31/12/2025"]) _ rfl
